import Mathlib

/-!
Verification of the flight-track notebook (Lesson05/Activity28).

The notebook defines two pieces of executable code:

1. `to_epoch(date, time)`: concatenates the two strings with a single space,
   parses the result with `datetime.strptime` under the fixed format
   `%Y/%m/%d %H:%M:%S.%f`, converts the parsed datetime to a POSIX timestamp
   with `datetime.timestamp()` and rounds the resulting float to an integer
   with Python `round` (round half to even). On a `ValueError` it instead
   returns the same conversion applied to the constant string
   `2017/09/11 17:02:06.418`.

2. `class TrackLayer(BaseLayer)` with `__init__(self, dataset,
   bbox=BoundingBox.WORLD)` storing `self.view = bbox`, a `draw` whose body is
   `pass`, and `bbox(self)` returning `self.view`.

Modelling decisions, stated once here:
* Strings are modelled as Lean `String` over their character lists. The regex
  classes `\d` and `\s` are modelled by their ASCII cases (digits 0-9 and the
  six ASCII whitespace characters); CPython also accepts some further Unicode
  digit and whitespace characters, so the domain of the parser model is a
  subset of the domain of the real parser, on which the two agree.
* The host environment is fixed: UTC timezone on a POSIX system. Under it,
  `datetime.timestamp()` of the naive parsed datetime returns the proleptic
  Gregorian second count since 1970-01-01T00:00:00 plus the microseconds,
  computed in IEEE binary64, except that for datetimes on the date 0001-01-01
  the mktime solver probes local time one day earlier, which falls in year 0
  and raises ValueError (caught by `to_epoch`, which then falls back to the
  constant). This raise condition is modelled by `timestampRaises`.
* The two floating point roundings the program performs (the division
  `microsecond / 1e6` and the following addition; the integer-to-double
  conversions involved are exact in this range) are modelled exactly by
  `fl64`, round to nearest with ties to even on the binary64 grid. For every
  magnitude in the interval from 2 to the power -69 up to 2 to the power 61,
  which covers every nonzero value arising here, `flExp` computes the true
  binary64 exponent, so `fl64` agrees bit-for-bit with the hardware; no
  overflow or subnormal occurs in that interval. Python `round` on the
  resulting double is `rhe`, round half to even on the exact value.
* A Python call that raises is modelled by `none`; `to_epoch` therefore
  returns `Option Int`, with `none` meaning an uncaught exception.
-/

/-- The seven fields of a CPython `datetime` object as produced by
`datetime.strptime` with the format `%Y/%m/%d %H:%M:%S.%f`. -/
structure PyDateTime where
  year : Nat
  month : Nat
  day : Nat
  hour : Nat
  minute : Nat
  second : Nat
  microsecond : Nat
deriving DecidableEq

/-- ASCII decimal digit, the regex class [0-9]. -/
def isDigitChar (c : Char) : Bool :=
  decide ('0' ≤ c ∧ c ≤ '9')

/-- Numeric value of an ASCII digit character. -/
def digitVal (c : Char) : Nat :=
  c.toNat - 48

/-- Value of a digit string, most significant first. -/
def natOfDigits (l : List Char) : Nat :=
  l.foldl (fun acc c => acc * 10 + digitVal c) 0

/-- ASCII whitespace, the core of the regex class \s that the format string
compiler substitutes for the literal space in the format. -/
def isSpaceChar (c : Char) : Bool :=
  c = ' ' ∨ c = '\t' ∨ c = '\n' ∨ c = '\r' ∨ c = '\x0b' ∨ c = '\x0c'

/-- Consume one literal character of the format. -/
def expect (c : Char) : List Char → Option (List Char)
  | d :: rest => if d = c then some rest else none
  | [] => none

/-- Consume the separator \s+: at least one whitespace character, greedily. -/
def dropSpaces : List Char → List Char
  | c :: rest => if isSpaceChar c then dropSpaces rest else c :: rest
  | [] => []

/-- Match \s+ at the head of the input. -/
def parseSpaces : List Char → Option (List Char)
  | c :: rest => if isSpaceChar c then some (dropSpaces rest) else none
  | [] => none

/-- The %Y directive: exactly four digits. -/
def parseYear : List Char → Option (Nat × List Char)
  | c1 :: c2 :: c3 :: c4 :: rest =>
      if isDigitChar c1 ∧ isDigitChar c2 ∧ isDigitChar c3 ∧ isDigitChar c4 then
        some (((digitVal c1 * 10 + digitVal c2) * 10 + digitVal c3) * 10 + digitVal c4, rest)
      else none
  | _ => none

/-- The %m directive, regex alternation 1[0-2] or 0[1-9] or [1-9]. Committing
to the two-digit alternatives is equivalent to the backtracking regex here,
because the character that follows the directive in the format is never a
digit. -/
def parseMonth : List Char → Option (Nat × List Char)
  | c1 :: c2 :: rest =>
      if c1 = '1' ∧ '0' ≤ c2 ∧ c2 ≤ '2' then some (10 + digitVal c2, rest)
      else if c1 = '0' ∧ '1' ≤ c2 ∧ c2 ≤ '9' then some (digitVal c2, rest)
      else if '1' ≤ c1 ∧ c1 ≤ '9' then some (digitVal c1, c2 :: rest)
      else none
  | [c1] => if '1' ≤ c1 ∧ c1 ≤ '9' then some (digitVal c1, []) else none
  | [] => none

/-- The %d directive, regex alternation 3[01] or [1-2]\d or 0[1-9] or [1-9]. -/
def parseDay : List Char → Option (Nat × List Char)
  | c1 :: c2 :: rest =>
      if c1 = '3' ∧ '0' ≤ c2 ∧ c2 ≤ '1' then some (30 + digitVal c2, rest)
      else if ('1' ≤ c1 ∧ c1 ≤ '2') ∧ isDigitChar c2 then
        some (digitVal c1 * 10 + digitVal c2, rest)
      else if c1 = '0' ∧ '1' ≤ c2 ∧ c2 ≤ '9' then some (digitVal c2, rest)
      else if '1' ≤ c1 ∧ c1 ≤ '9' then some (digitVal c1, c2 :: rest)
      else none
  | [c1] => if '1' ≤ c1 ∧ c1 ≤ '9' then some (digitVal c1, []) else none
  | [] => none

/-- The %H directive, regex alternation 2[0-3] or [0-1]\d or \d. -/
def parseHour : List Char → Option (Nat × List Char)
  | c1 :: c2 :: rest =>
      if c1 = '2' ∧ '0' ≤ c2 ∧ c2 ≤ '3' then some (20 + digitVal c2, rest)
      else if ('0' ≤ c1 ∧ c1 ≤ '1') ∧ isDigitChar c2 then
        some (digitVal c1 * 10 + digitVal c2, rest)
      else if isDigitChar c1 then some (digitVal c1, c2 :: rest)
      else none
  | [c1] => if isDigitChar c1 then some (digitVal c1, []) else none
  | [] => none

/-- The %M directive, regex alternation [0-5]\d or \d. -/
def parseMinute : List Char → Option (Nat × List Char)
  | c1 :: c2 :: rest =>
      if ('0' ≤ c1 ∧ c1 ≤ '5') ∧ isDigitChar c2 then
        some (digitVal c1 * 10 + digitVal c2, rest)
      else if isDigitChar c1 then some (digitVal c1, c2 :: rest)
      else none
  | [c1] => if isDigitChar c1 then some (digitVal c1, []) else none
  | [] => none

/-- The %S directive, regex alternation 6[0-1] or [0-5]\d or \d. The values 60
and 61 match the regex but are rejected by the datetime constructor below. -/
def parseSecond : List Char → Option (Nat × List Char)
  | c1 :: c2 :: rest =>
      if c1 = '6' ∧ '0' ≤ c2 ∧ c2 ≤ '1' then some (60 + digitVal c2, rest)
      else if ('0' ≤ c1 ∧ c1 ≤ '5') ∧ isDigitChar c2 then
        some (digitVal c1 * 10 + digitVal c2, rest)
      else if isDigitChar c1 then some (digitVal c1, c2 :: rest)
      else none
  | [c1] => if isDigitChar c1 then some (digitVal c1, []) else none
  | [] => none

/-- Take up to n leading ASCII digits. -/
def takeDigits : Nat → List Char → (List Char × List Char)
  | 0, l => ([], l)
  | _ + 1, [] => ([], [])
  | n + 1, c :: rest =>
      if isDigitChar c then
        let p := takeDigits n rest
        (c :: p.1, p.2)
      else ([], c :: rest)

/-- The %f directive, regex [0-9]\x7b1,6\x7d, converted to microseconds by
right-padding the matched digits with zeros to six places. -/
def parseFraction (l : List Char) : Option (Nat × List Char) :=
  let p := takeDigits 6 l
  if p.1 = [] then none
  else some (natOfDigits p.1 * 10 ^ (6 - p.1.length), p.2)

/-- Match the whole compiled pattern for the format `%Y/%m/%d %H:%M:%S.%f`
against the input, requiring the entire input to be consumed (strptime raises
on unconverted trailing data). -/
def matchFormat (s : List Char) : Option PyDateTime := do
  let (y, r1) ← parseYear s
  let r2 ← expect '/' r1
  let (mo, r3) ← parseMonth r2
  let r4 ← expect '/' r3
  let (d, r5) ← parseDay r4
  let r6 ← parseSpaces r5
  let (h, r7) ← parseHour r6
  let r8 ← expect ':' r7
  let (mi, r9) ← parseMinute r8
  let r10 ← expect ':' r9
  let (sec, r11) ← parseSecond r10
  let r12 ← expect '.' r11
  let (f, r13) ← parseFraction r12
  if r13 = [] then some (PyDateTime.mk y mo d h mi sec f) else none

/-- Proleptic Gregorian leap year test, as in CPython datetime. -/
def isLeapYear (y : Nat) : Bool :=
  y % 4 = 0 ∧ (y % 100 ≠ 0 ∨ y % 400 = 0)

/-- Number of days in a month, as in the CPython datetime month table. -/
def daysInMonth (y m : Nat) : Nat :=
  if m = 2 then (if isLeapYear y then 29 else 28)
  else if m = 4 ∨ m = 6 ∨ m = 9 ∨ m = 11 then 30
  else 31

/-- The datetime constructor raises ValueError outside these field ranges;
strptime therefore fails on such inputs even when the regex matched. -/
def validDatetime (dt : PyDateTime) : Bool :=
  decide (1 ≤ dt.year ∧ dt.year ≤ 9999 ∧ 1 ≤ dt.month ∧ dt.month ≤ 12 ∧
    1 ≤ dt.day ∧ dt.day ≤ daysInMonth dt.year dt.month ∧
    dt.hour ≤ 23 ∧ dt.minute ≤ 59 ∧ dt.second ≤ 59 ∧ dt.microsecond ≤ 999999)

/-- Model of `datetime.strptime(s, str)` for the fixed format
`%Y/%m/%d %H:%M:%S.%f`: regex match plus constructor validation; `none` is a
ValueError. -/
def strptime (s : String) : Option PyDateTime :=
  match matchFormat s.data with
  | none => none
  | some dt => if validDatetime dt then some dt else none

/-- Days in all years strictly before year y, proleptic Gregorian. -/
def daysBeforeYear (y : Nat) : Nat :=
  365 * (y - 1) + (y - 1) / 4 - (y - 1) / 100 + (y - 1) / 400

/-- Days in all months of year y strictly before month m. -/
def daysBeforeMonth (y m : Nat) : Nat :=
  (List.range (m - 1)).foldl (fun acc i => acc + daysInMonth y (i + 1)) 0

/-- Proleptic Gregorian ordinal of a date, with 0001-01-01 as day 1, as in
CPython datetime. -/
def ymd2ord (y m d : Nat) : Nat :=
  daysBeforeYear y + daysBeforeMonth y m + d

/-- The Gregorian ordinal of 1970-01-01, the POSIX epoch. -/
def epochOrdinal : Nat := 719163

/-- The integer second count returned by the mktime solver inside
`dt.timestamp()` under the UTC host: whole seconds of the instant since the
epoch, the microsecond field excluded. -/
def timestampSeconds (dt : PyDateTime) : Int :=
  ((ymd2ord dt.year dt.month dt.day : Int) - (epochOrdinal : Int)) * 86400
    + dt.hour * 3600 + dt.minute * 60 + dt.second

/-- Exact microsecond count of the instant since the epoch, the mathematical
value against which the float result is compared. -/
def timestampMicros (dt : PyDateTime) : Int :=
  timestampSeconds dt * 1000000 + dt.microsecond

/-- Under the UTC host, `dt.timestamp()` raises ValueError exactly when the
mktime solver, having found the solution t, probes local time at t minus one
day (looking for an earlier solution, since fold is 0) and that instant falls
in year 0, which the datetime range check rejects. This happens precisely for
datetimes whose date is 0001-01-01. The ValueError is caught by `to_epoch`. -/
def timestampRaises (dt : PyDateTime) : Bool :=
  decide (dt.year = 1 ∧ dt.month = 1 ∧ dt.day = 1)

/-- Python `round` applied to the exact rational value of a double: the
nearest integer, ties to the even one. -/
def rhe (q : ℚ) : ℤ :=
  if q - ⌊q⌋ < 1/2 then ⌊q⌋
  else if 1/2 < q - ⌊q⌋ then ⌊q⌋ + 1
  else if ⌊q⌋ % 2 = 0 then ⌊q⌋
  else ⌊q⌋ + 1

/-- Exponent search for binary64 rounding: starting at exponent e, walk down
until 2 to that power is at most q, with the given fuel. -/
def flExpAux : Nat → ℚ → ℤ → ℤ
  | 0, _, e => e
  | n + 1, q, e => if (2 : ℚ) ^ e ≤ q then e else flExpAux n q (e - 1)

/-- Binary64 exponent of a positive rational: the floor of its base-two
logarithm, exact for magnitudes between 2 to the -69 and 2 to the 61. -/
def flExp (q : ℚ) : ℤ :=
  flExpAux 130 q 60

/-- Binary64 rounding, round to nearest with ties to even, of a nonnegative
rational: scale onto the 53-bit significand grid, round there, scale back. -/
def fl64pos (q : ℚ) : ℚ :=
  (rhe (q * 2 ^ ((52:ℤ) - flExp q)) : ℚ) * 2 ^ (flExp q - (52:ℤ))

/-- Binary64 rounding of any rational, by sign symmetry of the IEEE rule. -/
def fl64 (q : ℚ) : ℚ :=
  if q < 0 then -fl64pos (-q) else fl64pos q

/-- The exact rational value of the double `dt.timestamp()` returns under the
UTC host (when it does not raise): the double division microsecond / 1e6,
then the double addition of the exact integer second count. -/
def timestampFloat (dt : PyDateTime) : ℚ :=
  fl64 ((timestampSeconds dt : ℚ) + fl64 ((dt.microsecond : ℚ) / 1000000))

/-- The expression `round(datetime.strptime(s, str).timestamp())` shared by
both branches of `to_epoch`; `none` is a ValueError escaping the expression,
from the parse, the constructor, or the timestamp call. -/
def strptimeEpochRounded (s : String) : Option Int :=
  match strptime s with
  | none => none
  | some dt => if timestampRaises dt then none else some (rhe (timestampFloat dt))

/-- Model of the notebook function `to_epoch(date, time)`: format the two
strings into one with a single space between them, convert; on ValueError,
convert the constant string instead. `none` would be an exception escaping
`to_epoch` itself. -/
def to_epoch (date time : String) : Option Int :=
  match strptimeEpochRounded (date ++ " " ++ time) with
  | some v => some v
  | none => strptimeEpochRounded "2017/09/11 17:02:06.418"

/-- Geographic bounding box of the geoplotlib library, north west south east.
Coordinates are modelled as rationals. -/
structure BoundingBox where
  north : ℚ
  west : ℚ
  south : ℚ
  east : ℚ
deriving DecidableEq

/-- The whole-world view constant BoundingBox.WORLD of geoplotlib. -/
def BoundingBox.WORLD : BoundingBox :=
  BoundingBox.mk 85 (-180) (-85) 180

/-- The bounding box for the view on Leeds built in the notebook. -/
def leeds_bbox : BoundingBox :=
  BoundingBox.mk 53.8074 (-3) 53.7074 0

/-- Observable state of a TrackLayer object: the constructor body
`self.view = bbox` stores only the bounding box, so `view` is the only
attribute. -/
structure TrackLayer where
  view : BoundingBox
deriving DecidableEq

/-- The constructor `__init__(self, dataset, bbox=BoundingBox.WORLD)` with the
optional argument given explicitly: the body stores `self.view = bbox` and
ignores `dataset`, which may be a value of any type. -/
def TrackLayer.init {α : Type} (dataset : α) (bbox : BoundingBox) : TrackLayer :=
  TrackLayer.mk bbox

/-- The same constructor called without the optional argument, which then
defaults to BoundingBox.WORLD. -/
def TrackLayer.initDefault {α : Type} (dataset : α) : TrackLayer :=
  TrackLayer.init dataset BoundingBox.WORLD

/-- The method `draw(self, proj, mouse_x, mouse_y, ui_manager)` whose body is
`pass`: it returns the unchanged object state paired with the Python return
value None, modelled as `none`. The four arguments may be of any types. -/
def TrackLayer.draw {β γ δ : Type} (self : TrackLayer) (proj : β)
    (mouse_x mouse_y : γ) (ui_manager : δ) : TrackLayer × Option BoundingBox :=
  (self, none)

/-- The method `bbox(self)`: returns `self.view`. -/
def TrackLayer.bbox (self : TrackLayer) : BoundingBox :=
  self.view

/-- State of a layer after a sequence of draw calls with the listed argument
tuples. -/
def drawSeq {β γ δ : Type} (l : TrackLayer) (calls : List (β × γ × γ × δ)) :
    TrackLayer :=
  calls.foldl (fun s a => (TrackLayer.draw s a.1 a.2.1 a.2.2.1 a.2.2.2).1) l

/-- Shared helper: the rounding rhe lands within one half of its argument,
ties included. -/
theorem rhe_near (q : ℚ) : |(rhe q : ℚ) - q| ≤ 1 / 2 := by
  have h1 : (⌊q⌋ : ℚ) ≤ q := Int.floor_le q
  have h2 : q < ⌊q⌋ + 1 := Int.lt_floor_add_one q
  unfold rhe
  rw [abs_le]
  split_ifs <;> constructor <;> push_cast <;> linarith

/-- Shared helper: rhe fixes zero. -/
theorem rhe_zero : rhe 0 = 0 := by
  unfold rhe
  norm_num

/-- Shared helper: when the fuel reaches down to the true exponent, the
exponent search brackets its argument between consecutive powers of two. -/
theorem flExpAux_bracket (n : Nat) (q : ℚ) :
    ∀ e : ℤ, q < 2 ^ (e + 1) → (2:ℚ) ^ (e - (n:ℤ)) ≤ q →
      (2:ℚ) ^ flExpAux n q e ≤ q ∧ q < 2 ^ (flExpAux n q e + 1) := by
  induction n with
  | zero =>
      intro e hup hlow
      simp only [flExpAux]
      refine ⟨?_, hup⟩
      simpa using hlow
  | succ m ih =>
      intro e hup hlow
      simp only [flExpAux]
      split_ifs with hle
      · exact ⟨hle, hup⟩
      · have hup2 : q < 2 ^ ((e - 1) + 1) := by
          rw [show (e - 1) + 1 = e by ring]
          exact not_le.mp hle
        have hlow2 : (2:ℚ) ^ ((e - 1) - (m:ℤ)) ≤ q := by
          rw [show (e - 1) - (m:ℤ) = e - ((m:ℤ) + 1) by ring]
          calc (2:ℚ) ^ (e - ((m:ℤ) + 1)) = 2 ^ (e - ((m + 1 : ℕ) : ℤ)) := by push_cast; ring_nf
            _ ≤ q := hlow
        exact ih (e - 1) hup2 hlow2

/-- Shared helper: when the argument is below the reach of the fuel, the
exponent search bottoms out at the start exponent minus the fuel. -/
theorem flExpAux_bot (n : Nat) (q : ℚ) :
    ∀ e : ℤ, q < 2 ^ (e - (n:ℤ) + 1) → flExpAux n q e = e - n := by
  induction n with
  | zero =>
      intro e _
      simp [flExpAux]
  | succ m ih =>
      intro e h
      have hmono : (2:ℚ) ^ (e - ((m + 1 : ℕ):ℤ) + 1) ≤ 2 ^ e := by
        apply zpow_le_zpow_right₀ one_le_two
        push_cast
        omega
      simp only [flExpAux]
      rw [if_neg (not_le.mpr (lt_of_lt_of_le h hmono))]
      have h2 : q < 2 ^ ((e - 1) - (m:ℤ) + 1) := by
        rw [show (e - 1) - (m:ℤ) + 1 = e - ((m + 1 : ℕ):ℤ) + 1 by push_cast; ring]
        exact h
      rw [ih (e - 1) h2]
      push_cast
      ring

/-- Shared helper: for magnitudes between 2 to the -70 and 2 to the 61 the
exponent search finds the true binary64 exponent. -/
theorem flExp_bracket (q : ℚ) (hlow : (2:ℚ) ^ (-70:ℤ) ≤ q) (hup : q < 2 ^ (61:ℤ)) :
    (2:ℚ) ^ flExp q ≤ q ∧ q < 2 ^ (flExp q + 1) := by
  unfold flExp
  apply flExpAux_bracket
  · rw [show ((60:ℤ) + 1) = 61 by norm_num]
    exact hup
  · rw [show (60:ℤ) - ((130:ℕ):ℤ) = -70 by norm_cast]
    exact hlow

/-- Shared helper: below 2 to the -69 the exponent search returns -70. -/
theorem flExp_bot (q : ℚ) (h : q < 2 ^ (-69:ℤ)) : flExp q = -70 := by
  unfold flExp
  rw [flExpAux_bot 130 q 60 (by rw [show (60:ℤ) - ((130:ℕ):ℤ) + 1 = -69 by norm_cast]; exact h)]
  norm_cast

/-- Shared helper: fl64pos fixes zero. -/
theorem fl64pos_zero : fl64pos 0 = 0 := by
  unfold fl64pos
  rw [zero_mul, rhe_zero]
  norm_num

/-- Shared helper: fl64pos moves its argument by at most half an ulp of the
grid selected by the exponent search. -/
theorem fl64pos_half_ulp (q : ℚ) : |fl64pos q - q| ≤ 2 ^ (flExp q - 53) := by
  unfold fl64pos
  have h2 : (2:ℚ) ≠ 0 := two_ne_zero
  have hpos : (0:ℚ) < 2 ^ (flExp q - (52:ℤ)) := zpow_pos (by norm_num) _
  have hqx : q * 2 ^ ((52:ℤ) - flExp q) * 2 ^ (flExp q - (52:ℤ)) = q := by
    rw [mul_assoc, ← zpow_add₀ h2]
    rw [show (52:ℤ) - flExp q + (flExp q - 52) = 0 by ring, zpow_zero, mul_one]
  calc |(rhe (q * 2 ^ ((52:ℤ) - flExp q)) : ℚ) * 2 ^ (flExp q - (52:ℤ)) - q|
      = |((rhe (q * 2 ^ ((52:ℤ) - flExp q)) : ℚ) - q * 2 ^ ((52:ℤ) - flExp q))
          * 2 ^ (flExp q - (52:ℤ))| := by
        rw [sub_mul, hqx]
    _ = |(rhe (q * 2 ^ ((52:ℤ) - flExp q)) : ℚ) - q * 2 ^ ((52:ℤ) - flExp q)|
          * 2 ^ (flExp q - (52:ℤ)) := by
        rw [abs_mul, abs_of_pos hpos]
    _ ≤ (1/2) * 2 ^ (flExp q - (52:ℤ)) :=
        mul_le_mul_of_nonneg_right (rhe_near _) (le_of_lt hpos)
    _ = 2 ^ (flExp q - 53) := by
        rw [show (1:ℚ)/2 = 2 ^ (-1:ℤ) by norm_num, ← zpow_add₀ h2]
        rw [show (-1:ℤ) + (flExp q - 52) = flExp q - 53 by ring]

/-- Shared helper: the error of fl64 reduces to the nonnegative case. -/
theorem fl64_sub_abs (q : ℚ) : |fl64 q - q| = abs (fl64pos (abs q) - abs q) := by
  unfold fl64
  split_ifs with h
  · rw [abs_of_neg h]
    rw [show -fl64pos (-q) - q = -(fl64pos (-q) - -q) by ring, abs_neg]
  · rw [abs_of_nonneg (not_lt.mp h)]

/-- Shared helper: on any rational of magnitude below 2 to the k plus 1, with
k between -69 and 59, the binary64 rounding moves the value by at most 2 to
the k minus 53. -/
theorem fl64_err_le (q : ℚ) (k : ℤ) (hk : -69 ≤ k) (hk2 : k ≤ 59)
    (h2 : |q| < 2 ^ (k + 1)) :
    |fl64 q - q| ≤ 2 ^ (k - 53) := by
  rw [fl64_sub_abs]
  rcases eq_or_lt_of_le (abs_nonneg q) with h0 | h0
  · rw [← h0, fl64pos_zero, sub_zero, abs_zero]
    positivity
  · have hle : flExp |q| ≤ k := by
      rcases le_or_lt ((2:ℚ) ^ (-70:ℤ)) |q| with hge | hlt
      · have hup : |q| < 2 ^ (61:ℤ) := by
          calc |q| < 2 ^ (k + 1) := h2
            _ ≤ 2 ^ (61:ℤ) := zpow_le_zpow_right₀ one_le_two (by omega)
        obtain ⟨hb1, _⟩ := flExp_bracket |q| hge hup
        by_contra hcon
        push_neg at hcon
        have hzz : (2:ℚ) ^ (k + 1) ≤ 2 ^ flExp |q| :=
          zpow_le_zpow_right₀ one_le_two (by omega)
        linarith
      · have hbot : flExp |q| = -70 := by
          apply flExp_bot
          calc |q| < 2 ^ (-70:ℤ) := hlt
            _ ≤ 2 ^ (-69:ℤ) := zpow_le_zpow_right₀ one_le_two (by omega)
        omega
    calc abs (fl64pos (abs q) - abs q) ≤ 2 ^ (flExp (abs q) - 53) := fl64pos_half_ulp _
      _ ≤ 2 ^ (k - 53) := zpow_le_zpow_right₀ one_le_two (by omega)

/-- Shared helper: every month has at most 31 days. -/
theorem daysInMonth_le (y m : Nat) : daysInMonth y m ≤ 31 := by
  unfold daysInMonth
  split_ifs <;> omega

/-- Shared helper: the days before a month are at most 31 per earlier month. -/
theorem daysBeforeMonth_le (y m : Nat) : daysBeforeMonth y m ≤ 31 * (m - 1) := by
  unfold daysBeforeMonth
  generalize m - 1 = n
  induction n with
  | zero => simp
  | succ k ih =>
      rw [List.range_succ, List.foldl_append]
      simp only [List.foldl_cons, List.foldl_nil]
      have := daysInMonth_le y (k + 1)
      omega

/-- Shared helper: bounds on the Gregorian ordinal of a valid date. -/
theorem ymd2ord_bounds (y m d : Nat) (hy2 : y ≤ 9999) (hm : m ≤ 12)
    (hd1 : 1 ≤ d) (hd : d ≤ 31) :
    1 ≤ ymd2ord y m d ∧ ymd2ord y m d ≤ 3669638 := by
  have h1 := daysBeforeMonth_le y m
  have h2 : daysBeforeYear y ≤ 3669266 := by
    unfold daysBeforeYear
    omega
  unfold ymd2ord
  omega

/-- Shared helper: the field ranges enforced by the datetime constructor. -/
theorem validDatetime_fields (dt : PyDateTime) (hv : validDatetime dt = true) :
    1 ≤ dt.year ∧ dt.year ≤ 9999 ∧ 1 ≤ dt.month ∧ dt.month ≤ 12 ∧ 1 ≤ dt.day ∧
      dt.day ≤ daysInMonth dt.year dt.month ∧ dt.hour ≤ 23 ∧ dt.minute ≤ 59 ∧
      dt.second ≤ 59 ∧ dt.microsecond ≤ 999999 := by
  unfold validDatetime at hv
  exact of_decide_eq_true hv

/-- Shared helper: the integer second count of any valid datetime lies well
inside the interval from minus 2 to the 37 to 2 to the 38 minus 2. -/
theorem timestampSeconds_bounds (dt : PyDateTime) (hv : validDatetime dt = true) :
    -(137438953472 : ℤ) ≤ timestampSeconds dt ∧ timestampSeconds dt ≤ 274877906942 := by
  obtain ⟨_, h2, _, h4, h5, h6, h7, h8, h9, _⟩ := validDatetime_fields dt hv
  have hd31 : dt.day ≤ 31 := le_trans h6 (daysInMonth_le _ _)
  obtain ⟨ho1, ho2⟩ := ymd2ord_bounds dt.year dt.month dt.day h2 h4 h5 hd31
  unfold timestampSeconds epochOrdinal
  omega

/-- Shared helper: a successful strptime implies the constructor validation. -/
theorem strptime_valid (s : String) (dt : PyDateTime) (h : strptime s = some dt) :
    validDatetime dt = true := by
  unfold strptime at h
  cases hm : matchFormat s.data with
  | none => rw [hm] at h; exact absurd h (by simp)
  | some dt2 =>
      rw [hm] at h
      change (if validDatetime dt2 then some dt2 else none) = some dt at h
      split_ifs at h with hv
      obtain rfl : dt2 = dt := by injection h
      exact hv

/-- Shared helper: the double computed by timestamp() differs from the exact
second count of the instant by at most 2 to the -16 plus 2 to the -54. -/
theorem timestampFloat_err (dt : PyDateTime)
    (hb1 : -(137438953472 : ℤ) ≤ timestampSeconds dt)
    (hb2 : timestampSeconds dt ≤ 274877906942)
    (hus : dt.microsecond ≤ 999999) :
    |timestampFloat dt - ((timestampSeconds dt : ℚ) + (dt.microsecond : ℚ) / 1000000)|
      ≤ 2 ^ (-16 : ℤ) + 2 ^ (-54 : ℤ) := by
  have husq : ((dt.microsecond : ℚ)) ≤ 999999 := by exact_mod_cast hus
  have hu0 : (0:ℚ) ≤ (dt.microsecond : ℚ) / 1000000 := by positivity
  have hu1 : (dt.microsecond : ℚ) / 1000000 ≤ 999999 / 1000000 := by gcongr
  have herr1 : |fl64 ((dt.microsecond : ℚ) / 1000000) - (dt.microsecond : ℚ) / 1000000|
      ≤ 2 ^ (-54 : ℤ) := by
    have := fl64_err_le ((dt.microsecond : ℚ) / 1000000) (-1) (by norm_num) (by norm_num)
      (by
        rw [abs_of_nonneg hu0, show (-1:ℤ) + 1 = 0 by norm_num, zpow_zero]
        calc (dt.microsecond : ℚ) / 1000000 ≤ 999999/1000000 := hu1
          _ < 1 := by norm_num)
    rw [show ((-1:ℤ) - 53) = -54 by norm_num] at this
    exact this
  have h54 : ((2:ℚ)) ^ (-54 : ℤ) = 1/18014398509481984 := by norm_num
  have hd1 : |fl64 ((dt.microsecond : ℚ) / 1000000)| ≤ 1 := by
    have hsplit : fl64 ((dt.microsecond : ℚ) / 1000000)
        = (fl64 ((dt.microsecond : ℚ) / 1000000) - (dt.microsecond : ℚ) / 1000000)
          + (dt.microsecond : ℚ) / 1000000 := by ring
    rw [hsplit]
    refine le_trans (abs_add _ _) ?_
    rw [abs_of_nonneg hu0]
    calc |fl64 ((dt.microsecond : ℚ) / 1000000) - (dt.microsecond : ℚ) / 1000000|
          + (dt.microsecond : ℚ) / 1000000
        ≤ 2 ^ (-54 : ℤ) + 999999/1000000 := add_le_add herr1 hu1
      _ ≤ 1 := by rw [h54]; norm_num
  have hsl : (-137438953472 : ℚ) ≤ (timestampSeconds dt : ℚ) := by exact_mod_cast hb1
  have hsu : (timestampSeconds dt : ℚ) ≤ 274877906942 := by exact_mod_cast hb2
  have hq2 : |(timestampSeconds dt : ℚ) + fl64 ((dt.microsecond : ℚ) / 1000000)|
      < 2 ^ ((37:ℤ) + 1) := by
    rw [show ((37:ℤ) + 1) = 38 by norm_num,
      show ((2:ℚ)) ^ ((38:ℤ)) = 274877906944 by norm_num, abs_lt]
    rw [abs_le] at hd1
    constructor <;> linarith
  have herr2 := fl64_err_le _ 37 (by norm_num) (by norm_num) hq2
  rw [show ((37:ℤ) - 53) = -16 by norm_num] at herr2
  unfold timestampFloat
  calc |fl64 ((timestampSeconds dt : ℚ) + fl64 ((dt.microsecond : ℚ) / 1000000))
        - ((timestampSeconds dt : ℚ) + (dt.microsecond : ℚ) / 1000000)|
      ≤ |fl64 ((timestampSeconds dt : ℚ) + fl64 ((dt.microsecond : ℚ) / 1000000))
          - ((timestampSeconds dt : ℚ) + fl64 ((dt.microsecond : ℚ) / 1000000))|
        + |((timestampSeconds dt : ℚ) + fl64 ((dt.microsecond : ℚ) / 1000000))
          - ((timestampSeconds dt : ℚ) + (dt.microsecond : ℚ) / 1000000)| :=
        abs_sub_le _ _ _
    _ ≤ 2 ^ (-16 : ℤ) + 2 ^ (-54 : ℤ) := by
        apply add_le_add herr2
        rw [show (timestampSeconds dt : ℚ) + fl64 ((dt.microsecond : ℚ) / 1000000)
            - ((timestampSeconds dt : ℚ) + (dt.microsecond : ℚ) / 1000000)
            = fl64 ((dt.microsecond : ℚ) / 1000000) - (dt.microsecond : ℚ) / 1000000 by ring]
        exact herr1

/-- Shared helper: the rounded float value is within 0.500016 seconds of the
exact instant, for every valid datetime. -/
theorem rhe_timestampFloat_near (dt : PyDateTime) (hv : validDatetime dt = true) :
    |(rhe (timestampFloat dt) : ℚ) - ((timestampSeconds dt : ℚ)
        + (dt.microsecond : ℚ) / 1000000)| ≤ 500016 / 1000000 := by
  obtain ⟨hb1, hb2⟩ := timestampSeconds_bounds dt hv
  have hus : dt.microsecond ≤ 999999 :=
    (validDatetime_fields dt hv).2.2.2.2.2.2.2.2.2
  have herr := timestampFloat_err dt hb1 hb2 hus
  have hr := rhe_near (timestampFloat dt)
  calc |(rhe (timestampFloat dt) : ℚ) - ((timestampSeconds dt : ℚ)
          + (dt.microsecond : ℚ) / 1000000)|
      ≤ |(rhe (timestampFloat dt) : ℚ) - timestampFloat dt|
        + |timestampFloat dt - ((timestampSeconds dt : ℚ)
            + (dt.microsecond : ℚ) / 1000000)| := abs_sub_le _ _ _
    _ ≤ 1/2 + (2 ^ (-16 : ℤ) + 2 ^ (-54 : ℤ)) := add_le_add hr herr
    _ ≤ 500016 / 1000000 := by
        rw [show ((2:ℚ)) ^ (-16 : ℤ) = 1/65536 by norm_num,
          show ((2:ℚ)) ^ (-54 : ℤ) = 1/18014398509481984 by norm_num]
        norm_num

/-- Shared helper: in integer microseconds, the value the program returns on
the success path is within 500016 microseconds of the exact instant. -/
theorem rhe_timestampFloat_micros (dt : PyDateTime) (hv : validDatetime dt = true) :
    |rhe (timestampFloat dt) * 1000000 - timestampMicros dt| ≤ 500016 := by
  have key := rhe_timestampFloat_near dt hv
  have hq : ((|rhe (timestampFloat dt) * 1000000 - timestampMicros dt| : ℤ) : ℚ)
      ≤ 500016 := by
    rw [Int.cast_abs]
    have expand : ((rhe (timestampFloat dt) * 1000000 - timestampMicros dt : ℤ) : ℚ)
        = ((rhe (timestampFloat dt) : ℚ) - ((timestampSeconds dt : ℚ)
            + (dt.microsecond : ℚ) / 1000000)) * 1000000 := by
      unfold timestampMicros
      push_cast
      ring
    rw [expand, abs_mul, abs_of_pos (by norm_num : (0:ℚ) < 1000000)]
    calc |(rhe (timestampFloat dt) : ℚ) - ((timestampSeconds dt : ℚ)
            + (dt.microsecond : ℚ) / 1000000)| * 1000000
        ≤ (500016/1000000) * 1000000 :=
          mul_le_mul_of_nonneg_right key (by norm_num)
      _ = 500016 := by norm_num
  exact_mod_cast hq

/-- Shared helper: on a parse success whose timestamp call does not raise,
to_epoch returns the rounded float value. -/
theorem to_epoch_success (date time : String) (dt : PyDateTime)
    (h : strptime (date ++ " " ++ time) = some dt)
    (hnr : timestampRaises dt = false) :
    to_epoch date time = some (rhe (timestampFloat dt)) := by
  have h2 : strptimeEpochRounded (date ++ " " ++ time)
      = some (rhe (timestampFloat dt)) := by
    unfold strptimeEpochRounded
    rw [h]
    show (if timestampRaises dt then none else some (rhe (timestampFloat dt)))
        = some (rhe (timestampFloat dt))
    rw [hnr]
    rfl
  unfold to_epoch
  rw [h2]

/-- Shared helper: the success-path value at the constant datetime is pinned
to 1505149326 by the accuracy bound, which leaves a unique integer. -/
theorem rhe_timestampFloat_const :
    rhe (timestampFloat (PyDateTime.mk 2017 9 11 17 2 6 418000)) = 1505149326 := by
  have hv : validDatetime (PyDateTime.mk 2017 9 11 17 2 6 418000) = true := by decide
  have key := rhe_timestampFloat_near (PyDateTime.mk 2017 9 11 17 2 6 418000) hv
  have hsec : timestampSeconds (PyDateTime.mk 2017 9 11 17 2 6 418000)
      = 1505149326 := by decide
  have hmc : ((PyDateTime.mk 2017 9 11 17 2 6 418000).microsecond : ℚ) = 418000 := by
    norm_num
  rw [hsec, hmc] at key
  push_cast at key
  rw [abs_le] at key
  obtain ⟨k1, k2⟩ := key
  have hlow : (1505149325:ℤ) < rhe (timestampFloat (PyDateTime.mk 2017 9 11 17 2 6 418000)) := by
    have hq : (1505149325:ℚ)
        < ((rhe (timestampFloat (PyDateTime.mk 2017 9 11 17 2 6 418000)) : ℤ) : ℚ) := by
      linarith
    exact_mod_cast hq
  have hhigh : rhe (timestampFloat (PyDateTime.mk 2017 9 11 17 2 6 418000))
      < (1505149327:ℤ) := by
    have hq : ((rhe (timestampFloat (PyDateTime.mk 2017 9 11 17 2 6 418000)) : ℤ) : ℚ)
        < 1505149327 := by
      linarith
    exact_mod_cast hq
  omega

/-- Shared helper: the conversion of the constant fallback string succeeds
and yields 1505149326 seconds, the epoch count of 2017-09-11T17:02:06.418
UTC under Python round of the float timestamp. -/
theorem fallback_value_eval :
    strptimeEpochRounded "2017/09/11 17:02:06.418" = some 1505149326 := by
  have hp : strptime "2017/09/11 17:02:06.418"
      = some (PyDateTime.mk 2017 9 11 17 2 6 418000) := by decide
  have hnr : timestampRaises (PyDateTime.mk 2017 9 11 17 2 6 418000) = false := by decide
  unfold strptimeEpochRounded
  rw [hp]
  show (if timestampRaises (PyDateTime.mk 2017 9 11 17 2 6 418000) then none
      else some (rhe (timestampFloat (PyDateTime.mk 2017 9 11 17 2 6 418000))))
      = some 1505149326
  rw [hnr, rhe_timestampFloat_const]
  rfl

/-- Shared helper: to_epoch always returns an integer value. -/
theorem to_epoch_isSome_helper (date time : String) :
    ∃ n : Int, to_epoch date time = some n := by
  unfold to_epoch
  cases h : strptimeEpochRounded (date ++ " " ++ time) with
  | none => exact ⟨1505149326, fallback_value_eval⟩
  | some v => exact ⟨v, rfl⟩

/-- Shared helper: on a parse failure to_epoch returns the constant
1505149326. -/
theorem to_epoch_fail_helper (date time : String)
    (h : strptime (date ++ " " ++ time) = none) :
    to_epoch date time = some 1505149326 := by
  have h2 : strptimeEpochRounded (date ++ " " ++ time) = none := by
    unfold strptimeEpochRounded
    rw [h]
  unfold to_epoch
  rw [h2]
  exact fallback_value_eval

/-- Shared helper: to_epoch at the constant pair, evaluated through the
success path. -/
theorem to_epoch_2017_eval :
    to_epoch "2017/09/11" "17:02:06.418" = some 1505149326 := by
  have h := to_epoch_success "2017/09/11" "17:02:06.418"
    (PyDateTime.mk 2017 9 11 17 2 6 418000) (by decide) (by decide)
  rw [h, rhe_timestampFloat_const]

/-- C1 counterexample: the claim that to_epoch returns the epoch second count
of every parsed instant, rounded to the nearest integer, is false at the
concrete input pair 0001/01/01 and 00:00:00.000000. The concatenation parses
under the format, yet the timestamp call raises and to_epoch returns the
fallback constant 1505149326, which is more than half a second, in
microseconds, away from the exact count of that instant. -/
theorem to_epoch_correct_counterexample :
    strptime ("0001/01/01" ++ " " ++ "00:00:00.000000")
      = some (PyDateTime.mk 1 1 1 0 0 0 0) ∧
    to_epoch "0001/01/01" "00:00:00.000000" = some 1505149326 ∧
    1505149326 * 1000000 - timestampMicros (PyDateTime.mk 1 1 1 0 0 0 0) > 500000 := by
  refine ⟨by decide, ?_, by decide⟩
  have hp : strptime ("0001/01/01" ++ " " ++ "00:00:00.000000")
      = some (PyDateTime.mk 1 1 1 0 0 0 0) := by decide
  have hr : timestampRaises (PyDateTime.mk 1 1 1 0 0 0 0) = true := by decide
  have hn : strptimeEpochRounded ("0001/01/01" ++ " " ++ "00:00:00.000000") = none := by
    unfold strptimeEpochRounded
    rw [hp]
    show (if timestampRaises (PyDateTime.mk 1 1 1 0 0 0 0) then none
        else some (rhe (timestampFloat (PyDateTime.mk 1 1 1 0 0 0 0)))) = none
    rw [hr]
    rfl
  unfold to_epoch
  rw [hn]
  exact fallback_value_eval

/-- C1 amended: for every date and time string whose concatenation parses
under the format (digits and whitespace taken as ASCII) to a datetime whose
timestamp call does not raise (it raises exactly on the date 0001-01-01,
where the fallback constant is returned instead), to_epoch returns the Python
round of the IEEE-double timestamp of the parsed instant: some n with n the
half-to-even rounding of the binary64 value, and n within 500016 microseconds
of the exact epoch microsecond count of the instant. The 500000 of exact
nearest-integer rounding can be exceeded, by at most the double rounding
error of the timestamp, as at 9999/12/31 23:59:58.500001. -/
theorem to_epoch_correct_on_parse (date time : String) (dt : PyDateTime)
    (h : strptime (date ++ " " ++ time) = some dt)
    (hnr : timestampRaises dt = false) :
    ∃ n : Int, to_epoch date time = some n ∧ n = rhe (timestampFloat dt) ∧
      |n * 1000000 - timestampMicros dt| ≤ 500016 :=
  ⟨rhe (timestampFloat dt), to_epoch_success date time dt h hnr, rfl,
    rhe_timestampFloat_micros dt (strptime_valid _ _ h)⟩

/-- C1 witness: the concrete pair 2017/09/11 and 17:02:06.418 parses, does
not raise, and its conversion is within the stated bound of the exact epoch
microsecond count. -/
theorem to_epoch_correct_on_parse_witness :
    ∃ n : Int, to_epoch "2017/09/11" "17:02:06.418" = some n ∧
      n = rhe (timestampFloat (PyDateTime.mk 2017 9 11 17 2 6 418000)) ∧
      |n * 1000000 - timestampMicros (PyDateTime.mk 2017 9 11 17 2 6 418000)| ≤ 500016 :=
  to_epoch_correct_on_parse "2017/09/11" "17:02:06.418"
    (PyDateTime.mk 2017 9 11 17 2 6 418000) (by decide) (by decide)

/-- C2: whenever the concatenated input fails to parse, to_epoch does not
raise and returns the one fixed constant 1505149326, the same value for every
failing input. -/
theorem to_epoch_fallback_on_parse_failure (date time : String)
    (h : strptime (date ++ " " ++ time) = none) :
    to_epoch date time = some 1505149326 :=
  to_epoch_fail_helper date time h

/-- C2 witness: a concrete non-parsing pair receives the fixed constant. -/
theorem to_epoch_fallback_on_parse_failure_witness :
    to_epoch "not a date" "not a time" = some 1505149326 :=
  to_epoch_fallback_on_parse_failure "not a date" "not a time" (by decide)

/-- C3: to_epoch is total on string inputs: for every pair of strings it
terminates with a value and never propagates an exception, so the result is
always some integer, derived or defaulted. -/
theorem to_epoch_total (date time : String) :
    (to_epoch date time).isSome = true := by
  obtain ⟨n, hn⟩ := to_epoch_isSome_helper date time
  rw [hn]
  rfl

/-- C4: for every dataset, of any type, and every bounding box b, the bbox
method of the layer built by the constructor with b returns exactly b. -/
theorem trackLayer_bbox_returns_configured {α : Type} (dataset : α)
    (b : BoundingBox) :
    TrackLayer.bbox (TrackLayer.init dataset b) = b :=
  rfl

/-- C5: for every pair of input strings, parsing or not, the value to_epoch
returns is an integer: there is an integer n with to_epoch date time = some n,
never a fractional or non-numeric result, because round is applied on both
branches. -/
theorem to_epoch_returns_integer (date time : String) :
    ∃ n : Int, to_epoch date time = some n :=
  to_epoch_isSome_helper date time

/-- C6: the fallback value coincides with the success path applied to the
constant strings: for every failing input pair, to_epoch equals to_epoch of
2017/09/11 with 17:02:06.418, and that constant input itself parses. -/
theorem to_epoch_fallback_eq_success_path (date time : String)
    (h : strptime (date ++ " " ++ time) = none) :
    to_epoch date time = to_epoch "2017/09/11" "17:02:06.418" ∧
      (strptime ("2017/09/11" ++ " " ++ "17:02:06.418")).isSome = true := by
  refine ⟨?_, by decide⟩
  rw [to_epoch_fail_helper date time h, to_epoch_2017_eval]

/-- C6 witness: a concrete failing pair maps to the same value as the constant
success-path input. -/
theorem to_epoch_fallback_eq_success_path_witness :
    to_epoch "x" "y" = to_epoch "2017/09/11" "17:02:06.418" ∧
      (strptime ("2017/09/11" ++ " " ++ "17:02:06.418")).isSome = true :=
  to_epoch_fallback_eq_success_path "x" "y" (by decide)

/-- C7 counterexample: the claim that all three methods are unimplemented
no-ops is false. At the concrete dataset 0 and the Leeds bounding box, bbox
produces the stored value leeds_bbox, and the constructor stores observable
state that differs between two bounding-box arguments, so neither method body
is empty of effect. -/
theorem trackLayer_stub_counterexample :
    TrackLayer.bbox (TrackLayer.init (0 : Nat) leeds_bbox) = leeds_bbox ∧
      TrackLayer.init (0 : Nat) leeds_bbox ≠ TrackLayer.init (0 : Nat) BoundingBox.WORLD := by
  refine ⟨rfl, fun hEq => ?_⟩
  have hview : leeds_bbox = BoundingBox.WORLD := congrArg TrackLayer.view hEq
  have hnorth : (53.8074 : ℚ) = 85 := congrArg BoundingBox.north hview
  norm_num at hnorth

/-- C7 amended: only draw has an unimplemented pass body; the constructor
stores the given bounding box as the view attribute, its only effect, and
bbox returns that stored view. -/
theorem trackLayer_stub_behavior {α β γ δ : Type} (dataset : α)
    (b : BoundingBox) (l : TrackLayer) (proj : β) (mx my : γ) (ui : δ) :
    TrackLayer.init dataset b = TrackLayer.mk b ∧
      TrackLayer.draw l proj mx my ui = (l, none) ∧
      TrackLayer.bbox l = l.view :=
  ⟨rfl, rfl, rfl⟩

/-- C8: draw is a pure no-op: for every layer state and arguments of any
types it returns the unchanged state paired with None, and bbox returns the
same value after any sequence of draw calls as before. -/
theorem trackLayer_draw_noop {β γ δ : Type} (l : TrackLayer) (proj : β)
    (mx my : γ) (ui : δ) (calls : List (β × γ × γ × δ)) :
    TrackLayer.draw l proj mx my ui = (l, none) ∧
      TrackLayer.bbox (drawSeq l calls) = TrackLayer.bbox l := by
  refine ⟨rfl, ?_⟩
  induction calls generalizing l with
  | nil => rfl
  | cons a t ih => exact ih l

/-- C9: constructed without an explicit bounding-box argument, the layer
defaults its view to BoundingBox.WORLD, which bbox then returns, for every
dataset of any type. -/
theorem trackLayer_default_bbox_world {α : Type} (dataset : α) :
    TrackLayer.bbox (TrackLayer.initDefault dataset) = BoundingBox.WORLD :=
  rfl

/-- C10: the layer state is independent of the dataset argument: for every
two datasets, of any two types, and every bounding box, the two constructed
layers are equal, since the constructor stores only the bounding box. -/
theorem trackLayer_dataset_independent {α₁ α₂ : Type} (d1 : α₁) (d2 : α₂)
    (b : BoundingBox) :
    TrackLayer.init d1 b = TrackLayer.init d2 b :=
  rfl
